import Mathlib

/-!
Shallow embedding of the gravitational three-body simulator in
`3corpos/corpos.py`.

Numeric values are modelled as exact rationals (`ℚ`).  Python's `float`
division raises `ZeroDivisionError` on a zero divisor, so every division
whose divisor can be zero is modelled by `qdiv : ℚ → ℚ → Option ℚ` and the
routines that perform such divisions return `Option`.  `np.sqrt` is not
rational-valued, so the force routine is parametrised by the square-root
function `sqrt : ℚ → ℚ` it uses; every theorem below holds for an arbitrary
such parameter (the concrete claims only ever need `sqrt` at perfect
squares, where the parameter can be instantiated exactly).
-/

/-- Module constant `G = 6.67430e-11` (gravitational constant). -/
def G : ℚ := 6.67430e-11

/-- Module constant `SCALE_FACTOR = 1e9` (plot units per meter). -/
def SCALE_FACTOR : ℚ := 1e9

/-- Module constant `DT = 86400` (initial time step, one day in seconds). -/
def DT : ℚ := 86400

/-- The fields of Python class `Body`. -/
structure Body where
  mass : ℚ
  x : ℚ
  y : ℚ
  vx : ℚ
  vy : ℚ
  color : String
  prev_x : ℚ
  prev_y : ℚ
  ax : ℚ
  ay : ℚ
  deriving DecidableEq, Repr

/-- `Body.__init__(mass, x, y, vx, vy, color)`: note that the bootstrap of
`prev_x`/`prev_y` uses the module constant `DT`, not any per-app time step. -/
def Body.init (mass x y vx vy : ℚ) (color : String) : Body :=
  { mass := mass, x := x, y := y, vx := vx, vy := vy, color := color
    prev_x := x - vx * DT, prev_y := y - vy * DT, ax := 0, ay := 0 }

/-- Python float division: raises (here: `none`) on a zero divisor. -/
def qdiv (a b : ℚ) : Option ℚ :=
  if b = 0 then none else some (a / b)

/-- The body of the inner pair loop of `compute_forces`, up to the two
acceleration deltas: given bodies `bi = bodies[i]` and `bj = bodies[j]`,
computes `((fx/m_i, fy/m_i), (fx/m_j, fy/m_j))`.  `compute_forces` adds the
first component to body `i`'s acceleration and subtracts the second from
body `j`'s. -/
def pairAccel (sqrt : ℚ → ℚ) (bi bj : Body) : Option ((ℚ × ℚ) × (ℚ × ℚ)) := do
  let dx := bj.x - bi.x
  let dy := bj.y - bi.y
  let r_sq := dx ^ 2 + dy ^ 2
  let r := sqrt r_sq + 1e-10
  let F ← qdiv (G * bi.mass * bj.mass) r_sq
  let fx ← qdiv (F * dx) r
  let fy ← qdiv (F * dy) r
  let daxi ← qdiv fx bi.mass
  let dayi ← qdiv fy bi.mass
  let daxj ← qdiv fx bj.mass
  let dayj ← qdiv fy bj.mass
  some ((daxi, dayi), (daxj, dayj))

/-- One iteration of the pair loop of `compute_forces`, acting on the body
list at indices `ij = (i, j)`. -/
def applyPair (sqrt : ℚ → ℚ) (bodies : List Body) (ij : ℕ × ℕ) :
    Option (List Body) := do
  let bi ← bodies.get? ij.1
  let bj ← bodies.get? ij.2
  let c ← pairAccel sqrt bi bj
  some (((bodies.set ij.1
    { bi with ax := bi.ax + c.1.1, ay := bi.ay + c.1.2 })).set ij.2
    { bj with ax := bj.ax - c.2.1, ay := bj.ay - c.2.2 })

/-- The iteration order of the double loop
`for i in range(n): for j in range(i+1, n)`. -/
def pairList (n : ℕ) : List (ℕ × ℕ) :=
  (List.range n).flatMap fun i =>
    (List.range' (i + 1) (n - (i + 1))).map fun j => (i, j)

/-- `compute_forces(bodies)`: zero all accelerations, then fold the pair
updates over all index pairs `i < j` in loop order. -/
def compute_forces (sqrt : ℚ → ℚ) (bodies : List Body) :
    Option (List Body) :=
  (pairList bodies.length).foldlM (applyPair sqrt)
    (bodies.map fun b => { b with ax := 0, ay := 0 })

/-- `update_positions(bodies, dt)`: the Verlet step, independently per body. -/
def update_positions (bodies : List Body) (dt : ℚ) : List Body :=
  bodies.map fun b =>
    let new_x := 2 * b.x - b.prev_x + b.ax * dt ^ 2
    let new_y := 2 * b.y - b.prev_y + b.ay * dt ^ 2
    { b with prev_x := b.x, x := new_x, prev_y := b.y, y := new_y }

/-- A `collections.deque(maxlen := cap)` of position samples. -/
structure Trail where
  cap : ℕ
  samples : List (ℚ × ℚ)
  deriving DecidableEq, Repr

/-- A fresh `deque(maxlen := cap)`. -/
def Trail.empty (cap : ℕ) : Trail :=
  { cap := cap, samples := [] }

/-- The last `n` elements of a list. -/
def takeLast (n : ℕ) (l : List (ℚ × ℚ)) : List (ℚ × ℚ) :=
  l.drop (l.length - n)

/-- `deque.append`: append one sample and drop from the front until the
length is within the deque's own `maxlen`. -/
def Trail.append (t : Trail) (p : ℚ × ℚ) : Trail :=
  { t with samples := takeLast t.cap (t.samples ++ [p]) }

/-- The per-trail recording step of `run_simulation`:
`trails[i].append(p)` followed by
`if len(trails[i]) > self.trail_length: trails[i].popleft()`. -/
def recordTrail (trail_length : ℕ) (t : Trail) (p : ℚ × ℚ) : Trail :=
  let t1 := t.append p
  if t1.samples.length > trail_length then
    { t1 with samples := t1.samples.tail }
  else t1

/-- The simulation-relevant mutable state of `SimulationApp`. -/
structure AppState where
  bodies : List Body
  trails : List Trail
  trail_length : ℕ
  dt : ℚ
  deriving DecidableEq, Repr

/-- `SimulationApp.validate_new_body`: each text field is parsed with
`float(...)`; a parse failure (modelled by `none`) raises, is caught, and
leaves the state unchanged.  When all five parses succeed the new body and
a fresh trail deque are appended — there is no further validation. -/
def validate_new_body (app : AppState) (mass x y vx vy : Option ℚ)
    (color : String) : AppState :=
  match mass, x, y, vx, vy with
  | some m, some x0, some y0, some vx0, some vy0 =>
    { app with
      bodies := app.bodies ++ [Body.init m x0 y0 vx0 vy0 color]
      trails := app.trails ++ [Trail.empty app.trail_length] }
  | _, _, _, _, _ => app

/-- `SimulationApp.update_dt(days)`: `self.dt = days * 86400`. -/
def update_dt (app : AppState) (days : ℚ) : AppState :=
  { app with dt := days * 86400 }

/-- The trail slider's command: `setattr(self, 'trail_length', n)` — this is
the whole effect of changing the configured trail capacity. -/
def set_trail_length (app : AppState) (n : ℕ) : AppState :=
  { app with trail_length := n }

/-- `SimulationApp.load_selected_preset`, parametrised by the chosen preset:
rebuild the body list from the preset entries and give every body a fresh
empty trail deque at the configured capacity. -/
def load_selected_preset (app : AppState) (preset : List Body) : AppState :=
  { app with
    bodies := preset.map fun b => Body.init b.mass b.x b.y b.vx b.vy b.color
    trails := preset.map fun _ => Trail.empty app.trail_length }

/-- The preset "Estrela Binária". -/
def estrelaBinaria : List Body :=
  [Body.init 1e30 (-1e10) 0 0 2e4 "red",
   Body.init 1e30 1e10 0 0 (-2e4) "blue"]

/-- One tick of `SimulationApp.run_simulation` (with `is_running` true):
forces, then integration with the current `dt`, then one trail sample per
body holding the body's new plot coordinates `(x/SCALE_FACTOR, y/SCALE_FACTOR)`. -/
def run_simulation (sqrt : ℚ → ℚ) (app : AppState) : Option AppState := do
  let bs ← compute_forces sqrt app.bodies
  let bs2 := update_positions bs app.dt
  let ts := (bs2.zip app.trails).map fun bt =>
    recordTrail app.trail_length bt.2
      (bt.1.x / SCALE_FACTOR, bt.1.y / SCALE_FACTOR)
  some { app with bodies := bs2, trails := ts }

/-- `n` consecutive simulation ticks. -/
def stepsN (sqrt : ℚ → ℚ) : ℕ → AppState → Option AppState
  | 0, app => some app
  | n + 1, app => (run_simulation sqrt app).bind (stepsN sqrt n)

/-! ## Shared helper definitions for the theorems -/

/-- An app state with no bodies, default trail length 100 and `dt = DT`. -/
def app0 : AppState :=
  { bodies := [], trails := [], trail_length := 100, dt := DT }

/-- `app0` after moving the time-step slider to 2 days. -/
def appDt2 : AppState := update_dt app0 2

/-! ## Claims -/

/-- C1: `update_positions` applies, to every body independently,
`new_position = 2·position − previous_position + acceleration·dt²`
componentwise, then sets `previous_position` to the old position and
`position` to `new_position`, leaving all other fields unchanged. -/
theorem update_positions_verlet (bodies : List Body) (dt : ℚ) (i : ℕ)
    (b : Body) (h : bodies.get? i = some b) :
    (update_positions bodies dt).length = bodies.length ∧
    (update_positions bodies dt).get? i = some
      { b with x := 2 * b.x - b.prev_x + b.ax * dt ^ 2,
               y := 2 * b.y - b.prev_y + b.ay * dt ^ 2,
               prev_x := b.x, prev_y := b.y } := by
  constructor
  · simp [update_positions]
  · simp [update_positions, List.get?_eq_getElem?, List.getElem?_map]
    rw [List.get?_eq_getElem?] at h
    simp [h]

/-- Witness for C1 at a concrete one-body list. -/
theorem update_positions_verlet_witness :
    (update_positions [Body.init 1 2 3 4 5 "w"] 10).length = 1 ∧
    (update_positions [Body.init 1 2 3 4 5 "w"] 10).get? 0 = some
      { Body.init 1 2 3 4 5 "w" with
        x := 2 * (Body.init 1 2 3 4 5 "w").x - (Body.init 1 2 3 4 5 "w").prev_x
              + (Body.init 1 2 3 4 5 "w").ax * 10 ^ 2,
        y := 2 * (Body.init 1 2 3 4 5 "w").y - (Body.init 1 2 3 4 5 "w").prev_y
              + (Body.init 1 2 3 4 5 "w").ay * 10 ^ 2,
        prev_x := (Body.init 1 2 3 4 5 "w").x,
        prev_y := (Body.init 1 2 3 4 5 "w").y } :=
  update_positions_verlet [Body.init 1 2 3 4 5 "w"] 10 0 (Body.init 1 2 3 4 5 "w") rfl

/-- C2 (code bug): with two bodies of positive mass at exactly coincident
positions, `compute_forces` hits a division by zero — `F` is divided by the
raw `r_sq = 0`, the softening `1e-10` having been added only to `r` — so the
call errors out (returns `none`) for every square-root function, instead of
producing a bounded force. -/
theorem compute_forces_coincident_division_error (sqrt : ℚ → ℚ) :
    compute_forces sqrt
      [Body.init 1e30 0 0 0 0 "red", Body.init 1e30 0 0 0 0 "blue"] = none ∧
    (0 : ℚ) < 1e30 := by
  constructor
  · have hp : pairList 2 = [(0, 1)] := rfl
    simp only [compute_forces, List.length_cons, List.length_nil, hp,
      List.foldlM_cons, List.foldlM_nil, List.map_cons, List.map_nil]
    simp only [applyPair, pairAccel, qdiv, Body.init, List.get?]
    norm_num
  · norm_num

/-- C4 counterexample: adding a body with mass `0` or `-5` is not rejected;
the body collection and the trail collection both grow. -/
theorem add_body_nonpositive_mass_accepted :
    (validate_new_body app0 (some 0) (some 0) (some 0) (some 0) (some 0)
      "white").bodies.length = 1 ∧
    (validate_new_body app0 (some (-5)) (some 0) (some 0) (some 0) (some 0)
      "white").bodies.length = 1 ∧
    (validate_new_body app0 (some 0) (some 0) (some 0) (some 0) (some 0)
      "white").trails.length = 1 ∧
    app0.bodies.length = 0 ∧ app0.trails.length = 0 :=
  ⟨rfl, rfl, rfl, rfl, rfl⟩

/-- C4 amended: `validate_new_body` performs no mass validation: a call with
mass ≤ 0 succeeds like any other, appending the new body and a fresh empty
trail to the collections. -/
theorem validate_new_body_appends (app : AppState) (m x y vx vy : ℚ)
    (c : String) (_h : m ≤ 0) :
    validate_new_body app (some m) (some x) (some y) (some vx) (some vy) c =
      { app with bodies := app.bodies ++ [Body.init m x y vx vy c],
                 trails := app.trails ++ [Trail.empty app.trail_length] } := rfl

/-- Witness for the amended C4 at mass 0. -/
theorem validate_new_body_appends_witness :
    (0 : ℚ) ≤ 0 ∧
    validate_new_body app0 (some 0) (some 0) (some 0) (some 0) (some 0) "w" =
      { app0 with bodies := app0.bodies ++ [Body.init 0 0 0 0 0 "w"],
                  trails := app0.trails ++ [Trail.empty app0.trail_length] } :=
  ⟨le_refl 0, validate_new_body_appends app0 0 0 0 0 0 "w" (le_refl 0)⟩

/-- C5 counterexample: with the configured time step at 2 days
(`dt = 172800`), a newly added body still gets
`prev_x = x − vx·86400` from the module constant, not `x − vx·dt`. -/
theorem body_bootstrap_ignores_current_dt :
    appDt2.dt = 172800 ∧
    ((validate_new_body appDt2 (some 1) (some 0) (some 0) (some 1) (some 0)
        "w").bodies.map Body.prev_x) = [-86400] ∧
    (-86400 : ℚ) ≠ 0 - 1 * appDt2.dt := by
  refine ⟨?_, ?_, ?_⟩
  · norm_num [appDt2, app0, update_dt]
  · norm_num [appDt2, app0, update_dt, validate_new_body, Body.init, DT]
  · norm_num [appDt2, app0, update_dt]

/-- C5 amended: `previous_position` is derived once at construction as
`position − velocity · DT`, where `DT = 86400` is the fixed module constant;
the currently configured `dt` of the app plays no role. -/
theorem body_bootstrap_uses_module_constant (app : AppState)
    (m x y vx vy : ℚ) (c : String) :
    (validate_new_body app (some m) (some x) (some y) (some vx) (some vy)
        c).bodies.getLast? = some (Body.init m x y vx vy c) ∧
    (Body.init m x y vx vy c).prev_x = x - vx * DT ∧
    (Body.init m x y vx vy c).prev_y = y - vy * DT ∧
    DT = 86400 := by
  refine ⟨?_, rfl, rfl, rfl⟩
  simp [validate_new_body, List.getLast?_concat]

/-- C8 counterexample: setting the trail capacity to 2 while a buffer holds
3 samples leaves the buffer untouched — it is not truncated to the 2 most
recent samples and its length exceeds the new capacity. -/
theorem set_trail_length_no_resize_cex :
    ((set_trail_length
        { bodies := [Body.init 1 0 0 0 0 "w"],
          trails := [{ cap := 100, samples := [(1, 1), (2, 2), (3, 3)] }],
          trail_length := 100, dt := DT } 2).trails.map
      fun t => t.samples.length) = [3] ∧
    ¬ (3 : ℕ) ≤ 2 := by
  refine ⟨rfl, by decide⟩

/-- C8 amended: setting the trail capacity to `n` only records `n` as the
configured `trail_length`; no existing trail buffer is resized, truncated,
or otherwise modified, and the rest of the state is untouched. -/
theorem set_trail_length_spec (app : AppState) (n : ℕ) :
    (set_trail_length app n).trails = app.trails ∧
    (set_trail_length app n).trail_length = n ∧
    (set_trail_length app n).bodies = app.bodies ∧
    (set_trail_length app n).dt = app.dt :=
  ⟨rfl, rfl, rfl, rfl⟩

/-- With the configured trail length equal to the deque capacity (the
stationary configuration), the conditional `popleft` never fires and a
record is exactly the capped deque append. -/
theorem recordTrail_stationary (cap : ℕ) (t : Trail) (p : ℚ × ℚ)
    (hcap : t.cap = cap) :
    recordTrail cap t p = { t with samples := takeLast cap (t.samples ++ [p]) } := by
  have hlen : (takeLast cap (t.samples ++ [p])).length ≤ cap := by
    simp only [takeLast, List.length_drop]
    omega
  simp only [recordTrail, Trail.append, hcap, gt_iff_lt]
  rw [if_neg (Nat.not_lt.mpr hlen)]

/-- Invariant carried through a sequence of stationary records: the deque
keeps its capacity, its contents are a suffix of everything recorded, and
its length is the minimum of capacity and the number of samples recorded. -/
theorem record_fold_stationary (cap : ℕ) :
    ∀ (ps : List (ℚ × ℚ)) (t : Trail) (rec : List (ℚ × ℚ)),
      t.cap = cap → t.samples <:+ rec → t.samples.length = min cap rec.length →
      ((ps.foldl (recordTrail cap) t).cap = cap ∧
       (ps.foldl (recordTrail cap) t).samples <:+ rec ++ ps ∧
       (ps.foldl (recordTrail cap) t).samples.length = min cap (rec ++ ps).length)
  | [], t, rec, h1, h2, h3 => by
      simpa using ⟨h1, h2, h3⟩
  | p :: ps, t, rec, h1, h2, h3 => by
      obtain ⟨s, hsr⟩ := h2
      have hstep := recordTrail_stationary cap t p h1
      have hcap' : (recordTrail cap t p).cap = cap := by rw [hstep]; exact h1
      have hsuf' : (recordTrail cap t p).samples <:+ rec ++ [p] := by
        rw [hstep]
        exact (List.drop_suffix _ _).trans ⟨s, by rw [← List.append_assoc, hsr]⟩
      have hlen' : (recordTrail cap t p).samples.length = min cap (rec ++ [p]).length := by
        rw [hstep]
        simp only [takeLast, List.length_drop, List.length_append, List.length_cons,
          List.length_nil]
        omega
      have IH := record_fold_stationary cap ps (recordTrail cap t p) (rec ++ [p])
        hcap' hsuf' hlen'
      simpa [List.foldl_cons, List.append_assoc] using IH

/-- C7: starting from a fresh deque of capacity `cap`, after any sequence of
`recordTrail` calls (with the configured trail length at the deque's
capacity) the length never exceeds `cap`, the buffer holds exactly the most
recently recorded samples — a suffix of the full recorded sequence, the
oldest having been discarded first — and its length is `min cap` (number
recorded). -/
theorem trail_bound_invariant (cap : ℕ) (ps : List (ℚ × ℚ)) :
    (ps.foldl (recordTrail cap) (Trail.empty cap)).samples.length ≤ cap ∧
    (ps.foldl (recordTrail cap) (Trail.empty cap)).samples <:+ ps ∧
    (ps.foldl (recordTrail cap) (Trail.empty cap)).samples.length
      = min cap ps.length := by
  have h := record_fold_stationary cap ps (Trail.empty cap) []
    rfl List.nil_suffix (by simp [Trail.empty])
  simp only [List.nil_append] at h
  exact ⟨h.2.2 ▸ Nat.min_le_left _ _, h.2.1, h.2.2⟩

/-- C9: whether a body addition succeeds (all five fields parse) or fails
(any parse error), and after any preset load, the trail collection and the
body collection have equal lengths, provided they were aligned before. -/
theorem trails_bodies_aligned (app : AppState) (m x y vx vy : Option ℚ)
    (c : String) (preset : List Body)
    (h : app.trails.length = app.bodies.length) :
    (validate_new_body app m x y vx vy c).trails.length
      = (validate_new_body app m x y vx vy c).bodies.length ∧
    (load_selected_preset app preset).trails.length
      = (load_selected_preset app preset).bodies.length := by
  constructor
  · cases m <;> cases x <;> cases y <;> cases vx <;> cases vy <;>
      simp [validate_new_body, h]
  · simp [load_selected_preset]

/-- Witness for C9 on the empty app, a successful addition, and the binary
star preset. -/
theorem trails_bodies_aligned_witness :
    app0.trails.length = app0.bodies.length ∧
    ((validate_new_body app0 (some 1) (some 2) (some 3) (some 4) (some 5)
        "w").trails.length
      = (validate_new_body app0 (some 1) (some 2) (some 3) (some 4) (some 5)
        "w").bodies.length ∧
     (load_selected_preset app0 estrelaBinaria).trails.length
      = (load_selected_preset app0 estrelaBinaria).bodies.length) :=
  ⟨rfl, trails_bodies_aligned app0 (some 1) (some 2) (some 3) (some 4) (some 5)
    "w" estrelaBinaria rfl⟩

/-- `qdiv` succeeds exactly on a nonzero divisor, returning the quotient. -/
theorem qdiv_eq_some {a b c : ℚ} : qdiv a b = some c ↔ b ≠ 0 ∧ c = a / b := by
  by_cases hb : b = 0 <;> simp [qdiv, hb, eq_comm]

/-- `pairList n` contains exactly the index pairs `i < j < n`. -/
theorem pairList_mem (n i j : ℕ) : (i, j) ∈ pairList n ↔ i < j ∧ j < n := by
  simp only [pairList, List.mem_flatMap, List.mem_map, List.mem_range,
    List.mem_range', Prod.mk.injEq]
  constructor
  · rintro ⟨a, ha, b, ⟨k, hk, hb⟩, rfl, rfl⟩
    omega
  · rintro ⟨hij, hjn⟩
    exact ⟨i, by omega, j, ⟨j - (i + 1), by omega, by omega⟩, rfl, rfl⟩

/-- `pairList n` lists each pair at most once. -/
theorem pairList_nodup (n : ℕ) : (pairList n).Nodup := by
  rw [pairList, List.nodup_flatMap]
  constructor
  · intro i _
    exact (List.nodup_range' _ _).map fun a b hab => by
      simpa using congrArg Prod.snd hab
  · have hlt : List.Pairwise (· < ·) (List.range n) := List.pairwise_lt_range n
    refine hlt.imp ?_
    intro a b hab
    intro p hpa hpb
    obtain ⟨_, _, rfl⟩ := List.mem_map.mp hpa
    obtain ⟨_, _, h2⟩ := List.mem_map.mp hpb
    exact absurd (congrArg Prod.fst h2) (by simpa using (Nat.ne_of_lt hab).symm)

/-- Concrete pair evaluation: masses 1 and 2 at distance 1 along the x-axis,
with the square root of `r_sq = 1` supplied exactly. -/
theorem pairAccel_concrete_eval :
    pairAccel (fun _ => 1) (Body.init 1 0 0 0 0 "a") (Body.init 2 1 0 0 0 "b")
      = some ((133486/1000000000100000, 0), (66743/1000000000100000, 0)) := by
  norm_num [pairAccel, qdiv, Body.init, G]

/-- C3 counterexample: for masses 1 and 2 one unit apart, the acceleration
contribution the pair evaluation assigns to body `i` has twice the magnitude
of the one it assigns to body `j` — the squared magnitudes differ, so the
contributions are not equal in magnitude as the claim states. -/
theorem pairAccel_magnitudes_differ :
    pairAccel (fun _ => 1) (Body.init 1 0 0 0 0 "a") (Body.init 2 1 0 0 0 "b")
      = some ((133486/1000000000100000, 0), (66743/1000000000100000, 0)) ∧
    ¬ (((133486 : ℚ)/1000000000100000) ^ 2 + (0 : ℚ) ^ 2
        = ((66743 : ℚ)/1000000000100000) ^ 2 + (0 : ℚ) ^ 2) :=
  ⟨pairAccel_concrete_eval, by norm_num⟩

/-- C3 amended: when a pair evaluation succeeds, the mass-weighted
acceleration contributions — the forces, since `applyPair` applies `+c_i` to
body `i` and `−c_j` to body `j` — are equal in magnitude and opposite in
direction: `m_i·c_i = m_j·c_j` componentwise.  The raw acceleration
contributions are opposite in direction but equal in magnitude only for
equal masses.  Each unordered pair is evaluated exactly once: `pairList n`
lists exactly the pairs `i < j < n`, without duplicates. -/
theorem pairAccel_newton (sqrt : ℚ → ℚ) (bi bj : Body) (ci1 ci2 cj1 cj2 : ℚ)
    (n i j : ℕ) (h : pairAccel sqrt bi bj = some ((ci1, ci2), (cj1, cj2))) :
    (bi.mass * ci1 = bj.mass * cj1 ∧ bi.mass * ci2 = bj.mass * cj2) ∧
    ((i, j) ∈ pairList n ↔ i < j ∧ j < n) ∧ (pairList n).Nodup := by
  refine ⟨?_, pairList_mem n i j, pairList_nodup n⟩
  simp only [pairAccel, Option.bind_eq_bind, Option.bind_eq_some, qdiv_eq_some,
    Option.some.injEq, Prod.mk.injEq] at h
  obtain ⟨F, ⟨hrsq, hF⟩, fx, ⟨hr, hfx⟩, fy, ⟨-, hfy⟩, daxi, ⟨hmi, hdaxi⟩,
    dayi, ⟨-, hdayi⟩, daxj, ⟨hmj, hdaxj⟩, dayj, ⟨-, hdayj⟩, h4⟩ := h
  obtain ⟨⟨e1, e2⟩, e3, e4⟩ := h4
  subst_vars
  constructor <;> · field_simp; ring

/-- Witness for the amended C3 at the concrete pair evaluation. -/
theorem pairAccel_newton_witness :
    (pairAccel (fun _ => 1) (Body.init 1 0 0 0 0 "a") (Body.init 2 1 0 0 0 "b")
      = some ((133486/1000000000100000, 0), (66743/1000000000100000, 0))) ∧
    (((Body.init 1 0 0 0 0 "a").mass * (133486/1000000000100000 : ℚ)
        = (Body.init 2 1 0 0 0 "b").mass * (66743/1000000000100000 : ℚ) ∧
      (Body.init 1 0 0 0 0 "a").mass * (0 : ℚ)
        = (Body.init 2 1 0 0 0 "b").mass * (0 : ℚ)) ∧
     ((0, 1) ∈ pairList 3 ↔ 0 < 1 ∧ 1 < 3) ∧ (pairList 3).Nodup) :=
  ⟨pairAccel_concrete_eval,
   pairAccel_newton (fun _ => 1) (Body.init 1 0 0 0 0 "a")
     (Body.init 2 1 0 0 0 "b") (133486/1000000000100000) 0
     (66743/1000000000100000) 0 3 0 1 pairAccel_concrete_eval⟩
def Body.nonAccelFields (b : Body) : ℚ × ℚ × ℚ × ℚ × ℚ × ℚ × ℚ × String :=
  (b.mass, b.x, b.y, b.prev_x, b.prev_y, b.vx, b.vy, b.color)

def Body.nonPosFields (b : Body) : ℚ × ℚ × ℚ × ℚ × ℚ × String :=
  (b.mass, b.vx, b.vy, b.ax, b.ay, b.color)

def Body.constFields (b : Body) : ℚ × ℚ × ℚ × String :=
  (b.mass, b.vx, b.vy, b.color)

theorem List_set_of_get? {α : Type} :
    ∀ (l : List α) (i : ℕ) (a : α), l.get? i = some a → l.set i a = l
  | [], _, _, h => by simp at h
  | x :: xs, 0, a, h => by
      simp only [List.get?_cons_zero, Option.some.injEq] at h
      rw [List.set_cons_zero, h]
  | x :: xs, i + 1, a, h => by
      simp only [List.get?_cons_succ] at h
      rw [List.set_cons_succ, List_set_of_get? xs i a h]

theorem applyPair_map_eq (sqrt : ℚ → ℚ) {β : Type} (f : Body → β)
    (hf : ∀ b a1 a2, f { b with ax := a1, ay := a2 } = f b)
    (bodies out : List Body) (ij : ℕ × ℕ)
    (h : applyPair sqrt bodies ij = some out) :
    out.map f = bodies.map f := by
  simp only [applyPair, Option.bind_eq_bind, Option.bind_eq_some,
    Option.some.injEq] at h
  obtain ⟨bi, hbi, bj, hbj, c, hc, hout⟩ := h
  subst hout
  have hgi : (List.map f bodies).get? ij.1 = some (f bi) := by
    rw [List.get?_eq_getElem?, List.getElem?_map, ← List.get?_eq_getElem?, hbi]
    rfl
  have hgj : (List.map f bodies).get? ij.2 = some (f bj) := by
    rw [List.get?_eq_getElem?, List.getElem?_map, ← List.get?_eq_getElem?, hbj]
    rfl
  rw [List.map_set, List.map_set, hf bi (bi.ax + c.1.1) (bi.ay + c.1.2),
    hf bj (bj.ax - c.2.1) (bj.ay - c.2.2), List_set_of_get? _ _ _ hgi]
  exact List_set_of_get? _ _ _ hgj

theorem foldlM_applyPair_map_eq (sqrt : ℚ → ℚ) {β : Type} (f : Body → β)
    (hf : ∀ b a1 a2, f { b with ax := a1, ay := a2 } = f b) :
    ∀ (l : List (ℕ × ℕ)) (init out : List Body),
      l.foldlM (applyPair sqrt) init = some out → out.map f = init.map f
  | [], init, out, h => by
      simp only [List.foldlM_nil, Option.pure_def, Option.some.injEq] at h
      rw [h]
  | ij :: l, init, out, h => by
      rw [List.foldlM_cons] at h
      simp only [Option.bind_eq_bind, Option.bind_eq_some] at h
      obtain ⟨mid, hmid, hrest⟩ := h
      rw [foldlM_applyPair_map_eq sqrt f hf l mid out hrest,
        applyPair_map_eq sqrt f hf init mid ij hmid]

theorem compute_forces_map_eq (sqrt : ℚ → ℚ) {β : Type} (f : Body → β)
    (hf : ∀ b a1 a2, f { b with ax := a1, ay := a2 } = f b)
    (bodies out : List Body) (h : compute_forces sqrt bodies = some out) :
    out.map f = bodies.map f := by
  rw [compute_forces] at h
  rw [foldlM_applyPair_map_eq sqrt f hf _ _ _ h, List.map_map]
  exact List.map_congr_left fun b _ => hf b 0 0

theorem compute_forces_length (sqrt : ℚ → ℚ) (bodies out : List Body)
    (h : compute_forces sqrt bodies = some out) :
    out.length = bodies.length := by
  have hmap := compute_forces_map_eq sqrt Body.nonAccelFields
    (fun _ _ _ => rfl) bodies out h
  simpa using congrArg List.length hmap

theorem update_positions_map_nonPos (bodies : List Body) (dt : ℚ) :
    (update_positions bodies dt).map Body.nonPosFields
      = bodies.map Body.nonPosFields := by
  rw [update_positions, List.map_map]
  exact List.map_congr_left fun b _ => rfl

theorem update_positions_map_const (bodies : List Body) (dt : ℚ) :
    (update_positions bodies dt).map Body.constFields
      = bodies.map Body.constFields := by
  rw [update_positions, List.map_map]
  exact List.map_congr_left fun b _ => rfl

theorem run_simulation_constFields (sqrt : ℚ → ℚ) (app app' : AppState)
    (h : run_simulation sqrt app = some app') :
    app'.bodies.map Body.constFields = app.bodies.map Body.constFields := by
  simp only [run_simulation, Option.bind_eq_bind, Option.bind_eq_some,
    Option.some.injEq] at h
  obtain ⟨bs, hbs, happ⟩ := h
  subst happ
  show (update_positions bs app.dt).map Body.constFields = _
  rw [update_positions_map_const,
    compute_forces_map_eq sqrt Body.constFields (fun _ _ _ => rfl) _ _ hbs]

theorem stepsN_constFields (sqrt : ℚ → ℚ) :
    ∀ (n : ℕ) (app app' : AppState), stepsN sqrt n app = some app' →
      app'.bodies.map Body.constFields = app.bodies.map Body.constFields
  | 0, app, app', h => by
      simp only [stepsN, Option.some.injEq] at h
      rw [h]
  | n + 1, app, app', h => by
      simp only [stepsN, Option.bind_eq_some] at h
      obtain ⟨mid, hmid, hrest⟩ := h
      rw [stepsN_constFields sqrt n mid app' hrest,
        run_simulation_constFields sqrt app mid hmid]

/-- C10: the force computation rewrites only the acceleration fields — every
other field survives `compute_forces` unchanged; the integrator rewrites
only `x`, `y`, `prev_x`, `prev_y` — every other field survives
`update_positions` unchanged; and across any number of whole simulation
steps every body keeps its construction-time `mass`, `vx`, `vy` and
`color`. -/
theorem forces_integrator_frame (sqrt : ℚ → ℚ) (bodies out : List Body)
    (dt : ℚ) (n : ℕ) (app app' : AppState)
    (h1 : compute_forces sqrt bodies = some out)
    (h2 : stepsN sqrt n app = some app') :
    out.map Body.nonAccelFields = bodies.map Body.nonAccelFields ∧
    (update_positions bodies dt).map Body.nonPosFields
      = bodies.map Body.nonPosFields ∧
    app'.bodies.map Body.constFields = app.bodies.map Body.constFields :=
  ⟨compute_forces_map_eq sqrt Body.nonAccelFields (fun _ _ _ => rfl) bodies out h1,
   update_positions_map_nonPos bodies dt,
   stepsN_constFields sqrt n app app' h2⟩

/-- Witness for C10: a one-body force computation and one step on the empty
app. -/
theorem forces_integrator_frame_witness :
    (compute_forces (fun _ => 0) [Body.init 1 0 0 0 0 "w"]
        = some [Body.init 1 0 0 0 0 "w"]) ∧
    (stepsN (fun _ => 0) 1 app0 = some app0) ∧
    ([Body.init 1 0 0 0 0 "w"].map Body.nonAccelFields
        = [Body.init 1 0 0 0 0 "w"].map Body.nonAccelFields ∧
     (update_positions [Body.init 1 0 0 0 0 "w"] 10).map Body.nonPosFields
        = [Body.init 1 0 0 0 0 "w"].map Body.nonPosFields ∧
     app0.bodies.map Body.constFields = app0.bodies.map Body.constFields) :=
  ⟨rfl, rfl,
   forces_integrator_frame (fun _ => 0) [Body.init 1 0 0 0 0 "w"]
     [Body.init 1 0 0 0 0 "w"] 10 1 app0 app0 rfl rfl⟩

/-- A one-body app whose body sits at `x = 2e9` with no velocity. -/
def appScaleCex : AppState :=
  { bodies := [Body.init 1 2e9 0 0 0 "w"], trails := [Trail.empty 100],
    trail_length := 100, dt := DT }

/-- C6 counterexample: after one simulation tick the single body's position
field is `x = 2e9`, but the sample recorded in its trail is `(2, 0)` — the
position divided by `SCALE_FACTOR = 1e9` — not the position field's value. -/
theorem trail_records_scaled_position :
    (run_simulation (fun _ => 0) appScaleCex).map
        (fun a => (a.bodies.map Body.x, a.trails.map Trail.samples))
      = some ([2e9], [[((2 : ℚ), (0 : ℚ))]]) ∧
    ((2 : ℚ), (0 : ℚ)) ≠ ((2e9 : ℚ), (0 : ℚ)) := by
  constructor
  · have hp : pairList 1 = [] := rfl
    simp only [appScaleCex, run_simulation, compute_forces, List.length_cons,
      List.length_nil, hp, List.foldlM_nil, List.map_cons, List.map_nil,
      Option.pure_def, Option.bind_eq_bind, Option.some_bind, Option.map_some]
    norm_num [update_positions, Body.init, recordTrail, Trail.append,
      Trail.empty, takeLast, SCALE_FACTOR, DT]
  · simp only [ne_eq, Prod.mk.injEq, not_and]
    intro hcontra
    norm_num at hcontra

/-- C6 amended: a simulation tick runs the force computation, then the
integration with the current `dt`, then records per body one trail sample —
the body's new post-integration position divided by `SCALE_FACTOR` (its plot
coordinates), not the raw position field — while `trail_length` and `dt`
are left unchanged. -/
theorem run_simulation_order (sqrt : ℚ → ℚ) (app app' : AppState)
    (bs1 : List Body) (i : ℕ)
    (h : compute_forces sqrt app.bodies = some bs1)
    (hrun : run_simulation sqrt app = some app')
    (_hlen : app.trails.length = app.bodies.length)
    (hi : i < app'.bodies.length) (ht : i < app.trails.length) :
    app'.bodies = update_positions bs1 app.dt ∧
    app'.trails.get? i = some (recordTrail app.trail_length
      (app.trails.get ⟨i, ht⟩)
      ((app'.bodies.get ⟨i, hi⟩).x / SCALE_FACTOR,
       (app'.bodies.get ⟨i, hi⟩).y / SCALE_FACTOR)) ∧
    app'.trail_length = app.trail_length ∧ app'.dt = app.dt := by
  simp only [run_simulation, Option.bind_eq_bind, Option.bind_eq_some,
    Option.some.injEq] at hrun
  obtain ⟨bs, hbs, happ⟩ := hrun
  rw [h] at hbs
  obtain rfl := Option.some.inj hbs
  subst happ
  refine ⟨rfl, ?_, rfl, rfl⟩
  have hzl : i < ((update_positions bs1 app.dt).zip app.trails).length := by
    rw [List.length_zip]
    exact lt_min hi ht
  simp only [List.get?_eq_getElem?, List.getElem?_map,
    List.getElem?_eq_getElem hzl, List.getElem_zip, List.get_eq_getElem]
  rfl

/-- The state reached from `appScaleCex` after one simulation tick. -/
def appScaleCexAfter : AppState :=
  { bodies := [{ mass := 1, x := 2e9, y := 0, vx := 0, vy := 0, color := "w",
                 prev_x := 2e9, prev_y := 0, ax := 0, ay := 0 }],
    trails := [{ cap := 100, samples := [((2 : ℚ), (0 : ℚ))] }],
    trail_length := 100, dt := DT }

theorem run_simulation_appScaleCex :
    run_simulation (fun _ => 0) appScaleCex = some appScaleCexAfter := by
  have hp : pairList 1 = [] := rfl
  simp only [appScaleCex, appScaleCexAfter, run_simulation, compute_forces,
    List.length_cons, List.length_nil, hp, List.foldlM_nil, List.map_cons,
    List.map_nil, Option.pure_def, Option.bind_eq_bind, Option.some_bind,
    Option.some.injEq, AppState.mk.injEq, List.cons.injEq, and_true,
    List.zip_cons_cons, List.zip_nil_right, Body.mk.injEq, Trail.mk.injEq]
  norm_num [update_positions, Body.init, recordTrail, Trail.append,
    Trail.empty, takeLast, SCALE_FACTOR, DT]

/-- Witness for the amended C6 on the one-body app. -/
theorem run_simulation_order_witness :
    (compute_forces (fun _ => 0) appScaleCex.bodies
        = some [Body.init 1 2e9 0 0 0 "w"]) ∧
    (run_simulation (fun _ => 0) appScaleCex = some appScaleCexAfter) ∧
    (appScaleCex.trails.length = appScaleCex.bodies.length) ∧
    (appScaleCexAfter.bodies
        = update_positions [Body.init 1 2e9 0 0 0 "w"] appScaleCex.dt ∧
     appScaleCexAfter.trails.get? 0 = some (recordTrail appScaleCex.trail_length
       (appScaleCex.trails.get ⟨0, by decide⟩)
       ((appScaleCexAfter.bodies.get ⟨0, by decide⟩).x / SCALE_FACTOR,
        (appScaleCexAfter.bodies.get ⟨0, by decide⟩).y / SCALE_FACTOR)) ∧
     appScaleCexAfter.trail_length = appScaleCex.trail_length ∧
     appScaleCexAfter.dt = appScaleCex.dt) :=
  ⟨rfl, run_simulation_appScaleCex, rfl,
   run_simulation_order (fun _ => 0) appScaleCex appScaleCexAfter
     [Body.init 1 2e9 0 0 0 "w"] 0 rfl run_simulation_appScaleCex rfl
     (by decide) (by decide)⟩
